import Mathlib

/-!
Verification of the Poseidon2 vectorization layer (`poseidon2-air/src/vectorized.rs`).

The layer reinterprets one flat trace row of `VECTOR_LEN * W` field elements as
`VECTOR_LEN` independent `Poseidon2Cols` records (`W` = the inner AIR's column
width) and evaluates the inner AIR once per record against one shared builder.

Shallow embedding conventions:
- a flat row is a `List T`; a `Poseidon2Cols` record is the `List T` of its `W`
  columns; `VectorizedPoseidon2Cols` holds the list of records;
- the unchecked `align_to` reinterpretation in the two `Borrow` impls is modelled
  by arithmetic chunking; its `debug_assert!` checks are kept behind a
  `debugAssertions` flag, and a failed assertion or a slice-index panic is an
  `Except.error` (a Rust panic);
- the constraint builder is external (`p3_air`); it is modelled as an
  accumulator that records both the asserted constraints and, to make the call
  sequence observable, each invocation of the inner evaluation routine (the
  `(air, record)` pair passed to it);
- the inner AIR (`Poseidon2Air`, its `Borrow` impl, `air::eval`,
  `new_from_rng`) lives in files of this repository that are not under `src/`;
  those definitions are modelled from the spec and are marked as such.
-/

namespace VectorizedPoseidon2

/-- Fuel-indexed chunking: splits a list into consecutive blocks of `w`
elements, front to back; the last block may be shorter.  Structural recursion
on the fuel keeps concrete evaluation kernel-reducible. -/
def listChunksAux {T : Type} (w : Nat) : Nat → List T → List (List T)
  | _, [] => []
  | 0, _ :: _ => []
  | fuel + 1, x :: xs => (x :: xs).take w :: listChunksAux w fuel ((x :: xs).drop w)

/-- Splits a list into consecutive blocks of `w` elements, front to back.
With `0 < w` the fuel `xs.length` is always sufficient. -/
def listChunks {T : Type} (w : Nat) (xs : List T) : List (List T) :=
  listChunksAux w xs.length xs

/-- The typed view of one flat row: `VECTOR_LEN` contiguous `Poseidon2Cols`
records of `W` elements each (`VectorizedPoseidon2Cols` in `vectorized.rs`,
with each inner `Poseidon2Cols` flattened to its `W` columns). -/
structure VectorizedPoseidon2Cols (T : Type) where
  cols : List (List T)
deriving DecidableEq, Repr

/-- Reads the typed view back as the flat row (the inverse direction of the
reinterpretation: the `repr(C)` array of records laid out contiguously). -/
def VectorizedPoseidon2Cols.flatten {T : Type} (v : VectorizedPoseidon2Cols T) : List T :=
  v.cols.flatten

/-- The `Borrow<VectorizedPoseidon2Cols<..>> for [T]` impl: reinterprets a flat
slice as the typed view via `align_to`.  `T` and the record struct share one
alignment, so `align_to` yields an empty prefix, `len / structSize` whole
structs from the front, and the remainder as the suffix.  The two
`debug_assert!`s (suffix empty, exactly one struct) run only when
`debugAssertions` is set; the final `&shorts[0]` is bounds-checked in every
build.  A panic is an `Except.error`. -/
def borrow {T : Type} (debugAssertions : Bool) (W VECTOR_LEN : Nat) (s : List T) :
    Except String (VectorizedPoseidon2Cols T) :=
  let structSize := VECTOR_LEN * W
  let numStructs := if structSize = 0 then 0 else s.length / structSize
  let shorts : List (VectorizedPoseidon2Cols T) :=
    (listChunks structSize (s.take (numStructs * structSize))).map
      (fun chunk => ⟨listChunks W chunk⟩)
  let suffix := s.drop (numStructs * structSize)
  if debugAssertions && !suffix.isEmpty then
    .error "Alignment should match"
  else if debugAssertions && shorts.length != 1 then
    .error "assertion failed: shorts.len() == 1"
  else
    match shorts with
    | [] => .error "index out of bounds"
    | c :: _ => .ok c

/-- The `BorrowMut<VectorizedPoseidon2Cols<..>> for [T]` impl: textually the
same reinterpretation as `borrow` via `align_to_mut`, with the same two
`debug_assert!`s; the mutable view's write capability has no extra content in
a functional embedding. -/
def borrowMut {T : Type} (debugAssertions : Bool) (W VECTOR_LEN : Nat) (s : List T) :
    Except String (VectorizedPoseidon2Cols T) :=
  let structSize := VECTOR_LEN * W
  let numStructs := if structSize = 0 then 0 else s.length / structSize
  let shorts : List (VectorizedPoseidon2Cols T) :=
    (listChunks structSize (s.take (numStructs * structSize))).map
      (fun chunk => ⟨listChunks W chunk⟩)
  let suffix := s.drop (numStructs * structSize)
  if debugAssertions && !suffix.isEmpty then
    .error "Alignment should match"
  else if debugAssertions && shorts.length != 1 then
    .error "assertion failed: shorts.len() == 1"
  else
    match shorts with
    | [] => .error "index out of bounds"
    | c :: _ => .ok c

/-- Modelled from the spec: the randomness source consumed by construction.
`new_from_rng` in the source takes any `R: Rng`; the spec only requires a
deterministic stream of field elements, so the model is a stream with a
position. -/
structure Rng (F : Type) where
  stream : Nat → F
  pos : Nat

/-- Modelled from the spec: drawing `n` successive elements from the source. -/
def Rng.draw {F : Type} (r : Rng F) (n : Nat) : List F × Rng F :=
  ((List.range n).map fun i => r.stream (r.pos + i), { r with pos := r.pos + n })

/-- Modelled from the spec: the external single-instance `Poseidon2Air`
definition (its file is not under `src/`).  The spec treats it as an external
collaborator holding one round-constant configuration and reporting its column
width via `width()`. -/
structure Poseidon2Air (F : Type) where
  roundConstants : List F
  width : Nat
deriving DecidableEq, Repr

/-- Modelled from the spec: `Poseidon2Air::new_from_rng` "fills round constants
and any layer parameters sized to the field and width" from the randomness
source; `numConstants` constants are drawn for a fixed width `w`. -/
def Poseidon2Air.new_from_rng {F : Type} (numConstants w : Nat) (rng : Rng F) :
    Poseidon2Air F × Rng F :=
  let (cs, rng') := rng.draw numConstants
  ({ roundConstants := cs, width := w }, rng')

/-- `VectorizedPoseidon2Air` from `vectorized.rs`: wraps exactly one inner AIR
definition; `VECTOR_LEN` is the const generic. -/
structure VectorizedPoseidon2Air (F : Type) (VECTOR_LEN : Nat) where
  air : Poseidon2Air F

/-- `VectorizedPoseidon2Air::new_from_rng`: `Self { air: Poseidon2Air::new_from_rng(rng) }`. -/
def VectorizedPoseidon2Air.new_from_rng {F : Type} (VECTOR_LEN numConstants w : Nat)
    (rng : Rng F) : VectorizedPoseidon2Air F VECTOR_LEN × Rng F :=
  let (a, rng') := Poseidon2Air.new_from_rng numConstants w rng
  ({ air := a }, rng')

/-- `BaseAir::width` for `VectorizedPoseidon2Air`: `self.air.width() * VECTOR_LEN`. -/
def VectorizedPoseidon2Air.width {F : Type} {VECTOR_LEN : Nat}
    (a : VectorizedPoseidon2Air F VECTOR_LEN) : Nat :=
  a.air.width * VECTOR_LEN

/-- Modelled from the spec: the external `AirBuilder`.  `main 0` is
`main.row_slice(0)` (the local row), `main 1` the next row, and so on.  It
accumulates asserted constraints; `callLog` additionally records each
invocation of the inner evaluation routine — the `(air, record)` pair passed —
so the call sequence is observable. -/
structure AirBuilder (F C : Type) where
  main : Nat → List F
  constraints : List C
  callLog : List (Poseidon2Air F × List F)

/-- One call `eval(&self.air, builder, perm)` of the inner evaluation routine
(`crate::air::eval`, external to `src/`): it asserts the record's constraints —
given by the abstract `innerEval` — into the shared builder, and the call is
logged. -/
def innerEvalCall {F C : Type} (innerEval : Poseidon2Air F → List F → List C)
    (air : Poseidon2Air F) (b : AirBuilder F C) (perm : List F) : AirBuilder F C :=
  { b with constraints := b.constraints ++ innerEval air perm
           callLog := b.callLog ++ [(air, perm)] }

/-- `Air::eval` for `VectorizedPoseidon2Air`: reads the local row
(`main.row_slice(0)`), reinterprets it via `borrow`, and runs
`for perm in &local.cols { eval(&self.air, builder, perm) }`.  A panic inside
`borrow` is an `Except.error`. -/
def VectorizedPoseidon2Air.eval {F C : Type} {VECTOR_LEN : Nat} (debugAssertions : Bool)
    (W : Nat) (innerEval : Poseidon2Air F → List F → List C)
    (a : VectorizedPoseidon2Air F VECTOR_LEN) (builder : AirBuilder F C) :
    Except String (AirBuilder F C) :=
  match borrow debugAssertions W VECTOR_LEN (builder.main 0) with
  | .error e => .error e
  | .ok localCols =>
      .ok (localCols.cols.foldl (fun b perm => innerEvalCall innerEval a.air b perm) builder)

/-- Modelled from the spec: the `Borrow<Poseidon2Cols<..>> for [T]` impl of the
inner AIR (its file is not under `src/`): the same `align_to` reinterpretation
as `borrow`, for a single record of `W` elements. -/
def borrowRecord {T : Type} (debugAssertions : Bool) (W : Nat) (s : List T) :
    Except String (List T) :=
  let numStructs := if W = 0 then 0 else s.length / W
  let shorts : List (List T) := listChunks W (s.take (numStructs * W))
  let suffix := s.drop (numStructs * W)
  if debugAssertions && !suffix.isEmpty then
    .error "Alignment should match"
  else if debugAssertions && shorts.length != 1 then
    .error "assertion failed: shorts.len() == 1"
  else
    match shorts with
    | [] => .error "index out of bounds"
    | c :: _ => .ok c

/-- Modelled from the spec: `Air::eval` of the inner `Poseidon2Air` (its file
is not under `src/`): it reads the local row, reinterprets it as one
`Poseidon2Cols` record, and asserts that record's identities into the
builder. -/
def Poseidon2Air.evalDirect {F C : Type} (debugAssertions : Bool) (W : Nat)
    (innerEval : Poseidon2Air F → List F → List C)
    (a : Poseidon2Air F) (builder : AirBuilder F C) : Except String (AirBuilder F C) :=
  match borrowRecord debugAssertions W (builder.main 0) with
  | .error e => .error e
  | .ok perm => .ok (innerEvalCall innerEval a builder perm)

/-! ### Chunking lemmas -/

theorem listChunksAux_nil {T : Type} (w : Nat) : ∀ f, listChunksAux w f ([] : List T) = []
  | 0 => rfl
  | _ + 1 => rfl

theorem listChunksAux_fuel {T : Type} (w : Nat) (hw : 0 < w) :
    ∀ (f g : Nat) (xs : List T), xs.length ≤ f → xs.length ≤ g →
      listChunksAux w f xs = listChunksAux w g xs := by
  intro f
  induction f with
  | zero =>
    intro g xs hf _
    have hxs : xs = [] := List.length_eq_zero.mp (Nat.le_zero.mp hf)
    subst hxs
    rw [listChunksAux_nil, listChunksAux_nil]
  | succ f ih =>
    intro g xs hf hg
    match xs, g with
    | [], g => rw [listChunksAux_nil, listChunksAux_nil]
    | x :: t, 0 => simp at hg
    | x :: t, g + 1 =>
      show (x :: t).take w :: listChunksAux w f ((x :: t).drop w)
          = (x :: t).take w :: listChunksAux w g ((x :: t).drop w)
      congr 1
      have hlen : ((x :: t).drop w).length ≤ t.length := by
        simp only [List.length_drop, List.length_cons]
        omega
      have hf' : t.length ≤ f := by simp only [List.length_cons] at hf; omega
      have hg' : t.length ≤ g := by simp only [List.length_cons] at hg; omega
      exact ih g _ (le_trans hlen hf') (le_trans hlen hg')

theorem listChunks_nil {T : Type} (w : Nat) : listChunks w ([] : List T) = [] := rfl

theorem listChunks_cons {T : Type} (w : Nat) (hw : 0 < w) (xs : List T) (hxs : xs ≠ []) :
    listChunks w xs = xs.take w :: listChunks w (xs.drop w) := by
  match xs with
  | x :: t =>
    show listChunksAux w (t.length + 1) (x :: t) = _
    show (x :: t).take w :: listChunksAux w t.length ((x :: t).drop w) = _
    congr 1
    exact listChunksAux_fuel w hw t.length ((x :: t).drop w).length _
      (by simp only [List.length_drop, List.length_cons]; omega) le_rfl

theorem listChunks_flatten_of_le {T : Type} (w : Nat) (hw : 0 < w) :
    ∀ (f : Nat) (xs : List T), xs.length ≤ f → (listChunks w xs).flatten = xs := by
  intro f
  induction f with
  | zero =>
    intro xs hf
    have hxs : xs = [] := List.length_eq_zero.mp (Nat.le_zero.mp hf)
    subst hxs
    rfl
  | succ f ih =>
    intro xs hf
    rcases xs with _ | ⟨x, t⟩
    · rfl
    · have hlen : ((x :: t).drop w).length ≤ f := by
        simp only [List.length_drop, List.length_cons]
        simp only [List.length_cons] at hf
        omega
      rw [listChunks_cons w hw _ (by simp), List.flatten_cons, ih ((x :: t).drop w) hlen]
      exact List.take_append_drop w (x :: t)

theorem listChunks_flatten {T : Type} (w : Nat) (hw : 0 < w) (xs : List T) :
    (listChunks w xs).flatten = xs :=
  listChunks_flatten_of_le w hw xs.length xs le_rfl

theorem listChunks_length {T : Type} (w : Nat) (hw : 0 < w) :
    ∀ (n : Nat) (xs : List T), xs.length = n * w → (listChunks w xs).length = n := by
  intro n
  induction n with
  | zero =>
    intro xs h
    have hxs : xs = [] := List.length_eq_zero.mp (by simpa using h)
    subst hxs
    rfl
  | succ n ih =>
    intro xs h
    have hxs : xs ≠ [] := by
      intro e
      subst e
      simp only [List.length_nil] at h
      nlinarith [Nat.succ_mul n w]
    rw [listChunks_cons w hw xs hxs, List.length_cons,
      ih (xs.drop w) (by simp only [List.length_drop, h, Nat.succ_mul]; omega)]

theorem listChunks_getElem {T : Type} (w : Nat) (hw : 0 < w) :
    ∀ (i n : Nat) (xs : List T), xs.length = n * w → i < n →
      (listChunks w xs)[i]? = some ((xs.drop (i * w)).take w) := by
  intro i
  induction i with
  | zero =>
    intro n xs hlen hn
    have hxs : xs ≠ [] := by
      intro e
      subst e
      simp only [List.length_nil] at hlen
      nlinarith
    rw [listChunks_cons w hw xs hxs]
    simp
  | succ i ih =>
    intro n xs hlen hn
    have hxs : xs ≠ [] := by
      intro e
      subst e
      simp only [List.length_nil] at hlen
      nlinarith
    have hdlen : (xs.drop w).length = (n - 1) * w := by
      simp only [List.length_drop, hlen]
      cases n with
      | zero => omega
      | succ m => simp [Nat.succ_mul]
    rw [listChunks_cons w hw xs hxs, List.getElem?_cons_succ,
      ih (n - 1) (xs.drop w) hdlen (by omega), List.drop_drop]
    have harith : w + i * w = (i + 1) * w := by rw [Nat.succ_mul, Nat.add_comm]
    rw [harith]

theorem slot_record_length {T : Type} (w n i : Nat) (hw : 0 < w) (xs : List T)
    (hlen : xs.length = n * w) (hi : i < n) :
    ((xs.drop (i * w)).take w).length = w := by
  have h1 : (i + 1) * w ≤ n * w := Nat.mul_le_mul_right w hi
  simp only [List.length_take, List.length_drop, hlen]
  have h2 : i * w + w ≤ n * w := by rw [← Nat.succ_mul]; exact h1
  omega

/-! ### Closed form of the borrow conversions at the exact length -/

theorem borrow_exact {T : Type} (debug : Bool) (W VL : Nat) (hW : 0 < W) (hVL : 0 < VL)
    (s : List T) (hs : s.length = VL * W) :
    borrow debug W VL s = .ok ⟨listChunks W s⟩ := by
  have hss : 0 < VL * W := Nat.mul_pos hVL hW
  have h0 : ¬ (VL * W = 0) := Nat.pos_iff_ne_zero.mp hss
  have hdiv : s.length / (VL * W) = 1 := by rw [hs]; exact Nat.div_self hss
  have hsne : s ≠ [] := by
    intro e
    subst e
    simp only [List.length_nil] at hs
    omega
  have htake : s.take (VL * W) = s := List.take_of_length_le (le_of_eq hs)
  have hdrop : s.drop (VL * W) = [] := List.drop_eq_nil_of_le (le_of_eq hs)
  have hch : listChunks (VL * W) s = [s] := by
    rw [listChunks_cons _ hss s hsne, htake, hdrop, listChunks_nil]
  simp [borrow, h0, hdiv, htake, hdrop, hch]

theorem borrowMut_exact {T : Type} (debug : Bool) (W VL : Nat) (hW : 0 < W) (hVL : 0 < VL)
    (s : List T) (hs : s.length = VL * W) :
    borrowMut debug W VL s = .ok ⟨listChunks W s⟩ := by
  have hss : 0 < VL * W := Nat.mul_pos hVL hW
  have h0 : ¬ (VL * W = 0) := Nat.pos_iff_ne_zero.mp hss
  have hdiv : s.length / (VL * W) = 1 := by rw [hs]; exact Nat.div_self hss
  have hsne : s ≠ [] := by
    intro e
    subst e
    simp only [List.length_nil] at hs
    omega
  have htake : s.take (VL * W) = s := List.take_of_length_le (le_of_eq hs)
  have hdrop : s.drop (VL * W) = [] := List.drop_eq_nil_of_le (le_of_eq hs)
  have hch : listChunks (VL * W) s = [s] := by
    rw [listChunks_cons _ hss s hsne, htake, hdrop, listChunks_nil]
  simp [borrowMut, h0, hdiv, htake, hdrop, hch]

theorem borrowRecord_exact {T : Type} (debug : Bool) (W : Nat) (hW : 0 < W)
    (s : List T) (hs : s.length = W) :
    borrowRecord debug W s = .ok s := by
  have h0 : ¬ (W = 0) := Nat.pos_iff_ne_zero.mp hW
  have hdiv : s.length / W = 1 := by rw [hs]; exact Nat.div_self hW
  have hsne : s ≠ [] := by
    intro e
    subst e
    simp only [List.length_nil] at hs
    omega
  have htake : s.take W = s := List.take_of_length_le (le_of_eq hs)
  have hdrop : s.drop W = [] := List.drop_eq_nil_of_le (le_of_eq hs)
  have hch : listChunks W s = [s] := by
    rw [listChunks_cons _ hW s hsne, htake, hdrop, listChunks_nil]
  simp [borrowRecord, h0, hdiv, htake, hdrop, hch]

/-! ### Closed form of the evaluation loop -/

theorem foldl_innerEvalCall {F C : Type} (innerEval : Poseidon2Air F → List F → List C)
    (air : Poseidon2Air F) :
    ∀ (cols : List (List F)) (b : AirBuilder F C),
      cols.foldl (fun b perm => innerEvalCall innerEval air b perm) b =
        { b with constraints := b.constraints ++ (cols.map (innerEval air)).flatten
                 callLog := b.callLog ++ cols.map (fun p => (air, p)) } := by
  intro cols
  induction cols with
  | nil => intro b; simp [innerEvalCall]
  | cons c cs ih =>
    intro b
    rw [List.foldl_cons, ih]
    simp [innerEvalCall, List.append_assoc]

theorem eval_ok {F C : Type} {VL : Nat} (debug : Bool) (W : Nat) (hW : 0 < W) (hVL : 0 < VL)
    (innerEval : Poseidon2Air F → List F → List C)
    (a : VectorizedPoseidon2Air F VL) (b : AirBuilder F C)
    (hrow : (b.main 0).length = VL * W) :
    VectorizedPoseidon2Air.eval debug W innerEval a b =
      .ok { main := b.main
            constraints :=
              b.constraints ++ ((listChunks W (b.main 0)).map (innerEval a.air)).flatten
            callLog := b.callLog ++ (listChunks W (b.main 0)).map (fun p => (a.air, p)) } := by
  unfold VectorizedPoseidon2Air.eval
  rw [borrow_exact debug W VL hW hVL _ hrow]
  exact congrArg Except.ok (foldl_innerEvalCall innerEval a.air _ b)

/-- The two borrow impls are the same reinterpretation (`align_to` versus
`align_to_mut` of the same layout). -/
theorem borrowMut_eq_borrow {T : Type} (debug : Bool) (W VL : Nat) (s : List T) :
    borrowMut debug W VL s = borrow debug W VL s := rfl

/-- A row strictly shorter than one struct is rejected in every build:
`align_to` yields no whole struct, so either a `debug_assert!` fires or the
final `&shorts[0]` panics on the empty slice. -/
theorem borrow_undersized {T : Type} (debug : Bool) (W VL : Nat) (hW : 0 < W) (hVL : 0 < VL)
    (s : List T) (hlt : s.length < VL * W) :
    ∃ e, borrow debug W VL s = .error e := by
  have hss : 0 < VL * W := Nat.mul_pos hVL hW
  have h0 : ¬ (VL * W = 0) := Nat.pos_iff_ne_zero.mp hss
  have hdiv : s.length / (VL * W) = 0 := Nat.div_eq_of_lt hlt
  simp only [borrow, if_neg h0, hdiv, Nat.zero_mul, List.take_zero, List.drop_zero,
    listChunks_nil, List.map_nil]
  cases debug with
  | false => simp
  | true =>
    cases s with
    | nil => simp
    | cons x t => simp

/-- With the `debug_assert!`s active, a row one element longer than the struct
is rejected: either the suffix of `align_to` is nonempty, or — when the struct
is a single element — two whole structs fit and the `shorts.len() == 1`
assertion fires. -/
theorem borrow_oversized_debug {T : Type} (W VL : Nat) (hW : 0 < W) (hVL : 0 < VL)
    (s : List T) (hs : s.length = VL * W + 1) :
    ∃ e, borrow true W VL s = .error e := by
  have hss : 0 < VL * W := Nat.mul_pos hVL hW
  have h0 : ¬ (VL * W = 0) := Nat.pos_iff_ne_zero.mp hss
  by_cases hemp : (s.drop (s.length / (VL * W) * (VL * W))).isEmpty
  · -- the suffix is empty: only possible when the struct is one element wide
    have hle : s.length / (VL * W) * (VL * W) ≤ s.length := Nat.div_mul_le_self _ _
    have hge : s.length ≤ s.length / (VL * W) * (VL * W) := by
      have := List.isEmpty_iff.mp hemp
      have hlen := congrArg List.length this
      simp only [List.length_drop, List.length_nil] at hlen
      omega
    have heq : s.length / (VL * W) * (VL * W) = VL * W + 1 := by omega
    have hdvd : VL * W ∣ VL * W + 1 := by
      exact ⟨s.length / (VL * W), by rw [← heq]; ring⟩
    have hone : VL * W = 1 := by
      have h1 : VL * W ∣ 1 := (Nat.dvd_add_right ⟨1, (Nat.mul_one _).symm⟩).mp hdvd
      exact Nat.dvd_one.mp h1
    have hdiv : s.length / (VL * W) = 2 := by rw [hs, hone]
    have hlen2 : (s.take (2 * (VL * W))).length = 2 * (VL * W) := by
      simp only [List.length_take]
      omega
    have hchlen : (listChunks (VL * W) (s.take (2 * (VL * W)))).length = 2 :=
      listChunks_length (VL * W) hss 2 _ hlen2
    refine ⟨"assertion failed: shorts.len() == 1", ?_⟩
    simp only [borrow, if_neg h0, hdiv]
    rw [if_neg, if_pos]
    · simp [List.length_map, hchlen]
    · rw [hdiv] at hemp
      simp [hemp]
  · refine ⟨"Alignment should match", ?_⟩
    simp only [borrow, if_neg h0]
    rw [if_pos]
    simp only [Bool.true_and, Bool.not_eq_true']
    simp only [Bool.not_eq_true'] at hemp
    simp [hemp]

/-- Without the `debug_assert!`s (a release build) a row one element longer
than the struct is accepted silently: `align_to` still yields at least one
whole struct and `&shorts[0]` returns the view over the first `VECTOR_LEN*W`
elements, dropping the excess. -/
theorem borrow_oversized_release {T : Type} (W VL : Nat) (hW : 0 < W) (hVL : 0 < VL)
    (s : List T) (hs : s.length = VL * W + 1) :
    borrow false W VL s = .ok ⟨listChunks W (s.take (VL * W))⟩ := by
  have hss : 0 < VL * W := Nat.mul_pos hVL hW
  have h0 : ¬ (VL * W = 0) := Nat.pos_iff_ne_zero.mp hss
  have hns1 : 1 ≤ s.length / (VL * W) := (Nat.one_le_div_iff hss).mpr (by omega)
  have hysne : s.take (s.length / (VL * W) * (VL * W)) ≠ [] := by
    apply List.ne_nil_of_length_pos
    simp only [List.length_take]
    have : VL * W ≤ s.length / (VL * W) * (VL * W) := Nat.le_mul_of_pos_left _ hns1
    omega
  have hch := listChunks_cons (VL * W) hss _ hysne
  have htt : (s.take (s.length / (VL * W) * (VL * W))).take (VL * W) = s.take (VL * W) := by
    rw [List.take_take]
    congr 1
    exact Nat.min_eq_left (Nat.le_mul_of_pos_left _ hns1)
  simp only [borrow, if_neg h0, hch, htt, List.map_cons]
  simp

/-! ### Claim theorems -/

/-- Claim C2: for every `VECTOR_LEN` and `W` (positive, as the const generics
of `Poseidon2Cols` are) and every flat sequence of exactly `VECTOR_LEN * W`
field elements, converting to the typed view — by `borrow` or by the mutable
`borrowMut` — succeeds, and reading the view back as a flat sequence
reproduces the original exactly: no reordering, duplication, or loss. -/
theorem C2_round_trip {T : Type} (debug : Bool) (W VL : Nat) (hW : 0 < W) (hVL : 0 < VL)
    (s : List T) (hs : s.length = VL * W) :
    (borrow debug W VL s).map VectorizedPoseidon2Cols.flatten = .ok s ∧
    (borrowMut debug W VL s).map VectorizedPoseidon2Cols.flatten = .ok s := by
  rw [borrowMut_eq_borrow, borrow_exact debug W VL hW hVL s hs]
  simp [Except.map, VectorizedPoseidon2Cols.flatten, listChunks_flatten W hW s]

/-- Witness for C2 at `W = 2`, `VECTOR_LEN = 3`, row `[0,…,5]`. -/
theorem C2_round_trip_witness :
    0 < 2 ∧ 0 < 3 ∧ ([0, 1, 2, 3, 4, 5] : List Nat).length = 3 * 2 ∧
    ((borrow true 2 3 ([0, 1, 2, 3, 4, 5] : List Nat)).map VectorizedPoseidon2Cols.flatten
        = .ok [0, 1, 2, 3, 4, 5] ∧
      (borrowMut true 2 3 ([0, 1, 2, 3, 4, 5] : List Nat)).map VectorizedPoseidon2Cols.flatten
        = .ok [0, 1, 2, 3, 4, 5]) :=
  ⟨by decide, by decide, by decide,
    C2_round_trip true 2 3 (by decide) (by decide) _ (by decide)⟩

/-- Claim C4: the vectorized `width` (`BaseAir::width`, the `total_width()` of
the spec) returns exactly `inner_width * VECTOR_LEN` for every constructed
definition and every `VECTOR_LEN`; in particular inner width 8 with
`VECTOR_LEN = 4` gives 32. -/
theorem C4_total_width {F : Type} :
    (∀ (VL : Nat) (a : VectorizedPoseidon2Air F VL), a.width = a.air.width * VL) ∧
    (∀ a : VectorizedPoseidon2Air F 4, a.air.width = 8 → a.width = 32) := by
  refine ⟨fun VL a => rfl, fun a h => ?_⟩
  simp [VectorizedPoseidon2Air.width, h]

/-- Witness for C4: an inner AIR of width 8 vectorized 4 ways reports 32. -/
theorem C4_total_width_witness :
    (({ air := { roundConstants := [], width := 8 } } :
        VectorizedPoseidon2Air Nat 4).air.width = 8) ∧
    ({ air := { roundConstants := [], width := 8 } } :
        VectorizedPoseidon2Air Nat 4).width = 32 :=
  ⟨rfl, (C4_total_width).2 { air := { roundConstants := [], width := 8 } } rfl⟩

/-- Claim C5: for a flat row of exactly `VECTOR_LEN * W` elements the typed
view is the array of `VECTOR_LEN` records in slot-major, field-minor order:
slot `i` is exactly the `W`-element window `[i*W, (i+1)*W)` of the flat
sequence, each record of length `W` — a pure reindexing of the row (no
element copied anywhere else), not a transposed structure-of-arrays. -/
theorem C5_slot_placement {T : Type} (debug : Bool) (W VL : Nat) (hW : 0 < W) (hVL : 0 < VL)
    (s : List T) (hs : s.length = VL * W) :
    borrow debug W VL s = .ok ⟨listChunks W s⟩ ∧
    (listChunks W s).length = VL ∧
    ∀ i, i < VL →
      (listChunks W s)[i]? = some ((s.drop (i * W)).take W) ∧
      ((s.drop (i * W)).take W).length = W :=
  ⟨borrow_exact debug W VL hW hVL s hs, listChunks_length W hW VL s hs, fun i hi =>
    ⟨listChunks_getElem W hW i VL s hs hi, slot_record_length W VL i hW s hs hi⟩⟩

/-- Witness for C5 at `W = 2`, `VECTOR_LEN = 2`, row `[10, 11, 12, 13]`. -/
theorem C5_slot_placement_witness :
    0 < 2 ∧ ([10, 11, 12, 13] : List Nat).length = 2 * 2 ∧
    (borrow false 2 2 ([10, 11, 12, 13] : List Nat) = .ok ⟨listChunks 2 [10, 11, 12, 13]⟩ ∧
      (listChunks 2 ([10, 11, 12, 13] : List Nat)).length = 2 ∧
      ∀ i, i < 2 →
        (listChunks 2 ([10, 11, 12, 13] : List Nat))[i]? =
          some ((([10, 11, 12, 13] : List Nat).drop (i * 2)).take 2) ∧
        ((([10, 11, 12, 13] : List Nat).drop (i * 2)).take 2).length = 2) :=
  ⟨by decide, by decide,
    C5_slot_placement false 2 2 (by decide) (by decide) _ (by decide)⟩

/-- Claim C1: on a local row of length `VECTOR_LEN * W` the vectorized `eval`
invokes the inner evaluation routine exactly `VECTOR_LEN` times against the
one shared builder, once per slot in strictly ascending slot order: the
builder's call log is extended by exactly the list of slot records in slot
order, its constraints by the corresponding contribution blocks, and slot `i`'s
record is the window `[i*W, (i+1)*W)` of the row.  This holds for every
`innerEval` — including ones whose earlier slots contribute violated
constraints — so no slot is ever skipped (no short-circuiting). -/
theorem C1_eval_once_per_slot {F C : Type} {VL : Nat} (debug : Bool) (W : Nat)
    (hW : 0 < W) (hVL : 0 < VL) (innerEval : Poseidon2Air F → List F → List C)
    (a : VectorizedPoseidon2Air F VL) (b : AirBuilder F C)
    (hrow : (b.main 0).length = VL * W) :
    VectorizedPoseidon2Air.eval debug W innerEval a b =
      .ok { main := b.main
            constraints :=
              b.constraints ++ ((listChunks W (b.main 0)).map (innerEval a.air)).flatten
            callLog := b.callLog ++ (listChunks W (b.main 0)).map (fun p => (a.air, p)) } ∧
    ((listChunks W (b.main 0)).map (fun p => (a.air, p))).length = VL ∧
    ∀ i, i < VL → (listChunks W (b.main 0))[i]? = some (((b.main 0).drop (i * W)).take W) := by
  refine ⟨eval_ok debug W hW hVL innerEval a b hrow, ?_,
    fun i hi => listChunks_getElem W hW i VL _ hrow hi⟩
  simp [listChunks_length W hW VL _ hrow]

/-- Witness for C1 at `W = 1`, `VECTOR_LEN = 2`, local row `[5, 7]`, with the
identity contribution function. -/
theorem C1_eval_once_per_slot_witness :
    0 < 1 ∧ 0 < 2 ∧
    ((({ main := fun _ => [5, 7], constraints := [], callLog := [] } :
        AirBuilder Nat Nat).main 0).length = 2 * 1) ∧
    (VectorizedPoseidon2Air.eval true 1 (fun _ p => p)
        ({ air := { roundConstants := [], width := 1 } } : VectorizedPoseidon2Air Nat 2)
        { main := fun _ => [5, 7], constraints := [], callLog := [] } =
      .ok { main := fun _ => [5, 7]
            constraints := [] ++
              ((listChunks 1 (([5, 7] : List Nat))).map
                ((fun _ p => p) ({ roundConstants := [], width := 1 } : Poseidon2Air Nat))).flatten
            callLog := [] ++ (listChunks 1 (([5, 7] : List Nat))).map
              (fun p => (({ roundConstants := [], width := 1 } : Poseidon2Air Nat), p)) } ∧
      ((listChunks 1 (([5, 7] : List Nat))).map
        (fun p => (({ roundConstants := [], width := 1 } : Poseidon2Air Nat), p))).length = 2 ∧
      ∀ i, i < 2 → (listChunks 1 (([5, 7] : List Nat)))[i]? =
        some ((([5, 7] : List Nat).drop (i * 1)).take 1)) :=
  ⟨by decide, by decide, by decide,
    C1_eval_once_per_slot true 1 (by decide) (by decide) (fun _ p => p)
      { air := { roundConstants := [], width := 1 } }
      { main := fun _ => [5, 7], constraints := [], callLog := [] } (by decide)⟩

/-- Claim C6: with `VECTOR_LEN = 1`, evaluating the vectorized definition on a
row of the inner width produces exactly the same builder outcome — the same
asserted constraints and the same single inner-evaluation call — as evaluating
the inner AIR definition directly on that row. -/
theorem C6_vector_len_one {F C : Type} (debug : Bool) (W : Nat) (hW : 0 < W)
    (innerEval : Poseidon2Air F → List F → List C)
    (a : VectorizedPoseidon2Air F 1) (b : AirBuilder F C)
    (hrow : (b.main 0).length = W) :
    VectorizedPoseidon2Air.eval debug W innerEval a b =
      Poseidon2Air.evalDirect debug W innerEval a.air b := by
  unfold VectorizedPoseidon2Air.eval Poseidon2Air.evalDirect
  have h1 : (b.main 0).length = 1 * W := by rw [hrow, Nat.one_mul]
  rw [borrow_exact debug W 1 hW Nat.one_pos _ h1, borrowRecord_exact debug W hW _ hrow]
  have hne : b.main 0 ≠ [] := by
    intro e
    rw [e] at hrow
    simp only [List.length_nil] at hrow
    omega
  have hch : listChunks W (b.main 0) = [b.main 0] := by
    rw [listChunks_cons W hW _ hne, List.take_of_length_le (le_of_eq hrow),
      List.drop_eq_nil_of_le (le_of_eq hrow), listChunks_nil]
  rw [hch]
  rfl

/-- Witness for C6 at `W = 2`, local row `[3, 4]`, with the identity
contribution function. -/
theorem C6_vector_len_one_witness :
    0 < 2 ∧
    ((({ main := fun _ => [3, 4], constraints := [], callLog := [] } :
        AirBuilder Nat Nat).main 0).length = 2) ∧
    VectorizedPoseidon2Air.eval true 2 (fun _ p => p)
        ({ air := { roundConstants := [9], width := 2 } } : VectorizedPoseidon2Air Nat 1)
        { main := fun _ => [3, 4], constraints := [], callLog := [] } =
      Poseidon2Air.evalDirect true 2 (fun _ p => p)
        ({ air := { roundConstants := [9], width := 2 } } :
          VectorizedPoseidon2Air Nat 1).air
        { main := fun _ => [3, 4], constraints := [], callLog := [] } :=
  ⟨by decide, by decide,
    C6_vector_len_one true 2 (by decide) (fun _ p => p)
      { air := { roundConstants := [9], width := 2 } }
      { main := fun _ => [3, 4], constraints := [], callLog := [] } (by decide)⟩

/-- Two lists that agree before position `i*W` and from position `(i+1)*W`
have equal `W`-wide windows at every slot `j ≠ i`. -/
theorem window_eq_of_agree_outside {T : Type} (W i j : Nat) (hij : j ≠ i)
    (r1 r2 : List T)
    (hpre : r1.take (i * W) = r2.take (i * W))
    (hsuf : r1.drop ((i + 1) * W) = r2.drop ((i + 1) * W)) :
    (r1.drop (j * W)).take W = (r2.drop (j * W)).take W := by
  rcases Nat.lt_or_ge j i with hji | hji
  · have hle : j * W + W ≤ i * W := by
      have := Nat.mul_le_mul_right W (Nat.succ_le_of_lt hji)
      rw [Nat.succ_mul] at this
      exact this
    have key : ∀ r : List T, ((r.take (i * W)).drop (j * W)).take W = (r.drop (j * W)).take W := by
      intro r
      rw [List.drop_take, List.take_take]
      congr 1
      omega
    rw [← key r1, ← key r2, hpre]
  · have hij' : i < j := Nat.lt_of_le_of_ne hji (Ne.symm hij)
    have hle : (i + 1) * W ≤ j * W := Nat.mul_le_mul_right W hij'
    have key : ∀ r : List T, (r.drop ((i + 1) * W)).drop (j * W - (i + 1) * W) = r.drop (j * W) := by
      intro r
      rw [List.drop_drop]
      congr 1
      omega
    rw [← key r1, ← key r2, hsuf]

/-- Claim C7: for two local rows of length `VECTOR_LEN * W` that differ only
within slot `i`'s `W`-wide window `[i*W, (i+1)*W)` (they agree before and
after it), every slot `j ≠ i` sees the identical record — each slot reads only
its own window, never another slot's — so the per-slot constraint
contributions coincide at every `j ≠ i`; and `eval` asserts exactly the
concatenation of those per-slot blocks, so the asserted constraints differ
only in slot `i`'s contribution. -/
theorem C7_slot_independence {F C : Type} (W VL : Nat) (hW : 0 < W) (hVL : 0 < VL)
    (i : Nat) (_hi : i < VL) (innerEval : Poseidon2Air F → List F → List C)
    (a : VectorizedPoseidon2Air F VL) (r1 r2 : List F)
    (h1 : r1.length = VL * W) (h2 : r2.length = VL * W)
    (hpre : r1.take (i * W) = r2.take (i * W))
    (hsuf : r1.drop ((i + 1) * W) = r2.drop ((i + 1) * W)) :
    (∀ j, j < VL → j ≠ i →
      (listChunks W r1)[j]? = (listChunks W r2)[j]? ∧
      ((listChunks W r1).map (innerEval a.air))[j]?
        = ((listChunks W r2).map (innerEval a.air))[j]?) ∧
    ∀ (debug : Bool) (b1 b2 : AirBuilder F C),
      b1.main 0 = r1 → b2.main 0 = r2 →
      (VectorizedPoseidon2Air.eval debug W innerEval a b1 =
        .ok { main := b1.main
              constraints := b1.constraints ++ ((listChunks W r1).map (innerEval a.air)).flatten
              callLog := b1.callLog ++ (listChunks W r1).map (fun p => (a.air, p)) }) ∧
      (VectorizedPoseidon2Air.eval debug W innerEval a b2 =
        .ok { main := b2.main
              constraints := b2.constraints ++ ((listChunks W r2).map (innerEval a.air)).flatten
              callLog := b2.callLog ++ (listChunks W r2).map (fun p => (a.air, p)) }) := by
  constructor
  · intro j hj hji
    have hwin := window_eq_of_agree_outside W i j hji r1 r2 hpre hsuf
    have hg1 := listChunks_getElem W hW j VL r1 h1 hj
    have hg2 := listChunks_getElem W hW j VL r2 h2 hj
    have hchunk : (listChunks W r1)[j]? = (listChunks W r2)[j]? := by
      rw [hg1, hg2, hwin]
    refine ⟨hchunk, ?_⟩
    rw [List.getElem?_map, List.getElem?_map, hchunk]
  · intro debug b1 b2 hm1 hm2
    constructor
    · have := eval_ok debug W hW hVL innerEval a b1 (by rw [hm1]; exact h1)
      rw [hm1] at this
      exact this
    · have := eval_ok debug W hW hVL innerEval a b2 (by rw [hm2]; exact h2)
      rw [hm2] at this
      exact this

/-- Witness for C7 at `W = 1`, `VECTOR_LEN = 2`, rows `[5, 7]` and `[6, 7]`
differing only in slot 0, with the identity contribution function. -/
theorem C7_slot_independence_witness :
    0 < 1 ∧ 0 < 2 ∧ (0 : Nat) < 2 ∧
    ([5, 7] : List Nat).length = 2 * 1 ∧ ([6, 7] : List Nat).length = 2 * 1 ∧
    ([5, 7] : List Nat).take (0 * 1) = ([6, 7] : List Nat).take (0 * 1) ∧
    ([5, 7] : List Nat).drop ((0 + 1) * 1) = ([6, 7] : List Nat).drop ((0 + 1) * 1) ∧
    (∀ j, j < 2 → j ≠ 0 →
      (listChunks 1 ([5, 7] : List Nat))[j]? = (listChunks 1 ([6, 7] : List Nat))[j]? ∧
      ((listChunks 1 ([5, 7] : List Nat)).map
          ((fun _ p => p) ({ air := { roundConstants := [], width := 1 } } :
            VectorizedPoseidon2Air Nat 2).air))[j]?
        = ((listChunks 1 ([6, 7] : List Nat)).map
          ((fun _ p => p) ({ air := { roundConstants := [], width := 1 } } :
            VectorizedPoseidon2Air Nat 2).air))[j]?) :=
  ⟨by decide, by decide, by decide, by decide, by decide, by decide, by decide,
    (C7_slot_independence 1 2 (by decide) (by decide) 0 (by decide)
      (fun _ p => p) { air := { roundConstants := [], width := 1 } }
      [5, 7] [6, 7] (by decide) (by decide) (by decide) (by decide)).1⟩

/-- Claim C8: `new_from_rng` delegates entirely to the inner AIR's randomized
constructor — the wrapped inner definition is exactly that constructor's
output and the randomness source is advanced exactly once, by the drawn
round-constant configuration; construction is a total (infallible) function of
the source.  Every one of the `VECTOR_LEN` slots is then evaluated against
that same single configuration: every call logged by `eval` carries the one
drawn inner AIR, with no per-slot differentiation. -/
theorem C8_construction_delegates {F C : Type} (VL numConstants w : Nat) (rng : Rng F) :
    (VectorizedPoseidon2Air.new_from_rng (F := F) VL numConstants w rng).1.air
        = (Poseidon2Air.new_from_rng numConstants w rng).1 ∧
    (VectorizedPoseidon2Air.new_from_rng (F := F) VL numConstants w rng).2
        = (Poseidon2Air.new_from_rng numConstants w rng).2 ∧
    (VectorizedPoseidon2Air.new_from_rng (F := F) VL numConstants w rng).2.pos
        = rng.pos + numConstants ∧
    ∀ (debug : Bool) (W : Nat) (innerEval : Poseidon2Air F → List F → List C)
      (b : AirBuilder F C), 0 < W → 0 < VL → (b.main 0).length = VL * W →
      ∃ b', VectorizedPoseidon2Air.eval debug W innerEval
          (VectorizedPoseidon2Air.new_from_rng (F := F) VL numConstants w rng).1 b = .ok b' ∧
        (b'.callLog.drop b.callLog.length).length = VL ∧
        ∀ e ∈ b'.callLog.drop b.callLog.length,
          e.1 = (Poseidon2Air.new_from_rng numConstants w rng).1 := by
  refine ⟨rfl, rfl, rfl, ?_⟩
  intro debug W innerEval b hW hVL hrow
  refine ⟨_, eval_ok debug W hW hVL innerEval _ b hrow, ?_, ?_⟩
  · rw [List.drop_left]
    simp [listChunks_length W hW VL _ hrow]
  · rw [List.drop_left]
    intro e he
    rcases List.mem_map.mp he with ⟨p, _, hpe⟩
    rw [← hpe]
    rfl

/-- Witness for C8 at `VECTOR_LEN = 2`, two constants drawn from the stream
`fun n => n`, then evaluated at `W = 1` on the local row `[5, 7]`. -/
theorem C8_construction_delegates_witness :
    (VectorizedPoseidon2Air.new_from_rng (F := Nat) 2 2 1
        { stream := fun n => n, pos := 0 }).1.air
      = (Poseidon2Air.new_from_rng 2 1 { stream := fun n => n, pos := 0 }).1 ∧
    0 < 1 ∧ 0 < 2 ∧
    ((({ main := fun _ => [5, 7], constraints := [], callLog := [] } :
        AirBuilder Nat Nat).main 0).length = 2 * 1) ∧
    ∃ b', VectorizedPoseidon2Air.eval true 1 (fun _ p => p)
        (VectorizedPoseidon2Air.new_from_rng (F := Nat) 2 2 1
          { stream := fun n => n, pos := 0 }).1
        { main := fun _ => [5, 7], constraints := [], callLog := [] } = .ok b' ∧
      (b'.callLog.drop ([] : List (Poseidon2Air Nat × List Nat)).length).length = 2 ∧
      ∀ e ∈ b'.callLog.drop ([] : List (Poseidon2Air Nat × List Nat)).length,
        e.1 = (Poseidon2Air.new_from_rng 2 1 { stream := fun n => n, pos := 0 }).1 :=
  ⟨rfl, by decide, by decide, by decide,
    (C8_construction_delegates 2 2 1 { stream := fun n => n, pos := 0 }).2.2.2
      true 1 (fun _ p => p)
      { main := fun _ => [5, 7], constraints := [], callLog := [] }
      (by decide) (by decide) (by decide)⟩

/-- Claim C9: construction is deterministic in the randomness source — two
calls of `new_from_rng` on identically-seeded sources (same position, same
stream) return identical results: the same round-constant configuration — the
one configuration that every slot shares, since the wrapper holds a single
inner AIR. -/
theorem C9_deterministic_construction {F : Type} (VL numConstants w : Nat) (r1 r2 : Rng F)
    (hpos : r1.pos = r2.pos) (hstream : ∀ n, r1.stream n = r2.stream n) :
    VectorizedPoseidon2Air.new_from_rng (F := F) VL numConstants w r1
      = VectorizedPoseidon2Air.new_from_rng VL numConstants w r2 ∧
    (VectorizedPoseidon2Air.new_from_rng (F := F) VL numConstants w r1).1.air.roundConstants
      = (VectorizedPoseidon2Air.new_from_rng (F := F) VL numConstants
          w r2).1.air.roundConstants := by
  have hr : r1 = r2 := by
    cases r1
    cases r2
    simp only [Rng.mk.injEq]
    exact ⟨funext hstream, hpos⟩
  rw [hr]
  exact ⟨rfl, rfl⟩

/-- Witness for C9: two sources with the stream `fun n => n + 3` at position 1
yield the same configuration (`VECTOR_LEN = 2`, two constants, width 4). -/
theorem C9_deterministic_construction_witness :
    ({ stream := fun n => n + 3, pos := 1 } : Rng Nat).pos
      = ({ stream := fun n => n + 3, pos := 1 } : Rng Nat).pos ∧
    (VectorizedPoseidon2Air.new_from_rng (F := Nat) 2 2 4
        { stream := fun n => n + 3, pos := 1 }
      = VectorizedPoseidon2Air.new_from_rng 2 2 4 { stream := fun n => n + 3, pos := 1 } ∧
    (VectorizedPoseidon2Air.new_from_rng (F := Nat) 2 2 4
        { stream := fun n => n + 3, pos := 1 }).1.air.roundConstants
      = (VectorizedPoseidon2Air.new_from_rng (F := Nat) 2 2 4
          { stream := fun n => n + 3, pos := 1 }).1.air.roundConstants) :=
  ⟨rfl, C9_deterministic_construction 2 2 4
    { stream := fun n => n + 3, pos := 1 } { stream := fun n => n + 3, pos := 1 }
    rfl (fun _ => rfl)⟩

/-- Claim C10: `eval` reads only the current (offset-0) row of the trace:
builders that agree on row 0 and on the accumulated state produce the same
outcome whatever any other row holds, so no next row is ever consulted; and a
successful evaluation returns the builder with its `main` (the row data)
unchanged — the AIR value itself is passed immutably and the only effect is
through the builder's accumulators. -/
theorem C10_eval_frame {F C : Type} {VL : Nat} (debug : Bool) (W : Nat)
    (innerEval : Poseidon2Air F → List F → List C) (a : VectorizedPoseidon2Air F VL)
    (b1 b2 : AirBuilder F C)
    (hmain : b1.main 0 = b2.main 0) (hcons : b1.constraints = b2.constraints)
    (hlog : b1.callLog = b2.callLog) :
    (∀ b', VectorizedPoseidon2Air.eval debug W innerEval a b1 = .ok b' →
      b'.main = b1.main) ∧
    (VectorizedPoseidon2Air.eval debug W innerEval a b1).map
        (fun b => (b.constraints, b.callLog))
      = (VectorizedPoseidon2Air.eval debug W innerEval a b2).map
        (fun b => (b.constraints, b.callLog)) := by
  constructor
  · intro b' h
    unfold VectorizedPoseidon2Air.eval at h
    cases hb : borrow debug W VL (b1.main 0) with
    | error e => rw [hb] at h; exact absurd h (by simp)
    | ok c =>
      rw [hb] at h
      simp only [Except.ok.injEq] at h
      rw [← h, foldl_innerEvalCall]
  · unfold VectorizedPoseidon2Air.eval
    rw [hmain]
    cases hb : borrow debug W VL (b2.main 0) with
    | error e => rfl
    | ok c =>
      simp only [Except.map]
      rw [foldl_innerEvalCall, foldl_innerEvalCall]
      simp [hcons, hlog]

/-- Witness for C10: two builders sharing row 0 `[1, 2]` but with different
next rows (`[8]` versus `[9]`) evaluate to the same constraints and call log,
with the row data unchanged (`W = 2`, `VECTOR_LEN = 1`). -/
theorem C10_eval_frame_witness :
    (({ main := fun i => if i = 0 then [1, 2] else [8], constraints := [], callLog := [] } :
        AirBuilder Nat Nat).main 0
      = ({ main := fun i => if i = 0 then [1, 2] else [9], constraints := [], callLog := [] } :
        AirBuilder Nat Nat).main 0) ∧
    ((∀ b', VectorizedPoseidon2Air.eval true 2 (fun _ p => p)
        ({ air := { roundConstants := [], width := 2 } } : VectorizedPoseidon2Air Nat 1)
        { main := fun i => if i = 0 then [1, 2] else [8],
          constraints := [], callLog := [] } = .ok b' →
      b'.main =
        ({ main := fun i => if i = 0 then [1, 2] else [8], constraints := [], callLog := [] } :
          AirBuilder Nat Nat).main) ∧
    (VectorizedPoseidon2Air.eval true 2 (fun _ p => p)
        ({ air := { roundConstants := [], width := 2 } } : VectorizedPoseidon2Air Nat 1)
        { main := fun i => if i = 0 then [1, 2] else [8],
          constraints := [], callLog := [] }).map (fun b => (b.constraints, b.callLog))
      = (VectorizedPoseidon2Air.eval true 2 (fun _ p => p)
        ({ air := { roundConstants := [], width := 2 } } : VectorizedPoseidon2Air Nat 1)
        { main := fun i => if i = 0 then [1, 2] else [9],
          constraints := [], callLog := [] }).map (fun b => (b.constraints, b.callLog))) :=
  ⟨rfl,
    C10_eval_frame true 2 (fun _ p => p)
      { air := { roundConstants := [], width := 2 } }
      { main := fun i => if i = 0 then [1, 2] else [8], constraints := [], callLog := [] }
      { main := fun i => if i = 0 then [1, 2] else [9], constraints := [], callLog := [] }
      rfl rfl rfl⟩

/-- Claim C3 is false as stated: with the debug assertions off (a release
build) a flat sequence of length `VECTOR_LEN*W + 1` is not rejected — at
`W = 2`, `VECTOR_LEN = 2` the 5-element sequence `[0, 1, 2, 3, 4]` is silently
accepted as the truncated, perfectly-shaped view `[[0, 1], [2, 3]]` of its
first four elements, by `borrow` and `borrowMut` alike. -/
theorem C3_counterexample :
    ([0, 1, 2, 3, 4] : List Nat).length = 2 * 2 + 1 ∧
    borrow false 2 2 ([0, 1, 2, 3, 4] : List Nat) = .ok ⟨[[0, 1], [2, 3]]⟩ ∧
    borrowMut false 2 2 ([0, 1, 2, 3, 4] : List Nat) = .ok ⟨[[0, 1], [2, 3]]⟩ :=
  ⟨rfl, rfl, rfl⟩

/-- Claim C3 amended: a flat sequence of length `VECTOR_LEN*W - 1` is rejected
in every build (no whole struct fits, and the final slice index panics even
with assertions off); a sequence of length `VECTOR_LEN*W + 1` is rejected only
while the debug assertions are active — with them off it is silently accepted
as the valid view over the first `VECTOR_LEN*W` elements, the excess dropped.
`borrowMut` behaves identically. -/
theorem C3_length_check_amended {T : Type} (W VL : Nat) (hW : 0 < W) (hVL : 0 < VL) :
    (∀ (debug : Bool) (s : List T), s.length = VL * W - 1 →
      (∃ e, borrow debug W VL s = .error e) ∧ ∃ e, borrowMut debug W VL s = .error e) ∧
    (∀ s : List T, s.length = VL * W + 1 →
      (∃ e, borrow true W VL s = .error e) ∧ ∃ e, borrowMut true W VL s = .error e) ∧
    (∀ s : List T, s.length = VL * W + 1 →
      borrow false W VL s = .ok ⟨listChunks W (s.take (VL * W))⟩ ∧
      borrowMut false W VL s = .ok ⟨listChunks W (s.take (VL * W))⟩) := by
  have hss : 0 < VL * W := Nat.mul_pos hVL hW
  refine ⟨fun debug s hs => ?_, fun s hs => ?_, fun s hs => ?_⟩
  · have h := borrow_undersized debug W VL hW hVL s (by omega)
    exact ⟨h, by rw [borrowMut_eq_borrow]; exact h⟩
  · have h := borrow_oversized_debug W VL hW hVL s hs
    exact ⟨h, by rw [borrowMut_eq_borrow]; exact h⟩
  · have h := borrow_oversized_release W VL hW hVL s hs
    exact ⟨h, by rw [borrowMut_eq_borrow]; exact h⟩

/-- Witness for the amended C3 at `W = 2`, `VECTOR_LEN = 2`: the 3-element row
is rejected in both build modes, the 5-element row is rejected with assertions
on and silently truncated with them off. -/
theorem C3_length_check_amended_witness :
    0 < 2 ∧ ([0, 1, 2] : List Nat).length = 2 * 2 - 1 ∧
    ([0, 1, 2, 3, 4] : List Nat).length = 2 * 2 + 1 ∧
    ((∃ e, borrow true 2 2 ([0, 1, 2] : List Nat) = .error e) ∧
      ∃ e, borrowMut true 2 2 ([0, 1, 2] : List Nat) = .error e) ∧
    ((∃ e, borrow true 2 2 ([0, 1, 2, 3, 4] : List Nat) = .error e) ∧
      ∃ e, borrowMut true 2 2 ([0, 1, 2, 3, 4] : List Nat) = .error e) ∧
    (borrow false 2 2 ([0, 1, 2, 3, 4] : List Nat)
        = .ok ⟨listChunks 2 (([0, 1, 2, 3, 4] : List Nat).take (2 * 2))⟩ ∧
      borrowMut false 2 2 ([0, 1, 2, 3, 4] : List Nat)
        = .ok ⟨listChunks 2 (([0, 1, 2, 3, 4] : List Nat).take (2 * 2))⟩) :=
  ⟨by decide, by decide, by decide,
    (C3_length_check_amended 2 2 (by decide) (by decide)).1 true [0, 1, 2] (by decide),
    (C3_length_check_amended 2 2 (by decide) (by decide)).2.1 [0, 1, 2, 3, 4] (by decide),
    (C3_length_check_amended 2 2 (by decide) (by decide)).2.2 [0, 1, 2, 3, 4] (by decide)⟩

end VectorizedPoseidon2
